import Mathlib

/-!
Verification of the prizm-service-ai RAG pipeline against its specification.

The Python sources are shallowly embedded: pure code becomes Lean functions,
calls to external collaborators (object store, OpenAI embedding / chat models,
the Qdrant vector index server) become explicit oracle parameters returning
`Except`/`Option` values, and the Qdrant collection itself is modelled as a
list of points with the search / upsert / delete semantics described in the
specification of the Vector Index collaborator (cosine scoring is abstracted
as a similarity parameter, since the service never computes scores itself).
-/

namespace Prizm

/-! ## Data model (src/services/qdrant_service.py payload schema) -/

/-- Embedding vectors; the numeric contents are irrelevant to every claim, so
floats are modelled as rationals. -/
abbrev Vec := List Rat

/-- Free-form metadata attached by the ingestion pipeline: originating file
display name and chunk character length (rag_processor.py lines 251-254). -/
structure Metadata where
  file_name : String
  chunk_length : Nat
deriving DecidableEq, Repr

/-- Payload stored with each indexed point (qdrant_service.py lines 89-95). -/
structure Payload where
  workspace_id : Nat
  file_id : Nat
  chunk_index : Nat
  text : String
  metadata : Metadata
deriving DecidableEq, Repr

/-- One stored point of the Qdrant collection. -/
structure Point where
  id : String
  vector : Vec
  payload : Payload
deriving DecidableEq, Repr

/-- The single shared collection, modelled as a list of points. -/
abbrev Index := List Point

/-! ## Model of the Qdrant server operations

The Qdrant client is an external collaborator; these definitions model the
documented behaviour of its collection operations that the service relies on:
filtered similarity search (ranked by descending score, at most `limit`
results), upsert keyed by point id (insert or replace), and deletion by
filter. -/

/-- Point ids currently present in the collection. -/
def indexIds (index : Index) : List String := index.map Point.id

/-- Upsert of a single point: replaces the point with the same id if present,
otherwise appends. -/
def upsertOne (index : Index) (p : Point) : Index :=
  if index.any (fun q => q.id == p.id) then
    index.map (fun q => if q.id == p.id then p else q)
  else
    index ++ [p]

/-- Replacement of the point holding an id (the action of an upsert whose id
is already present). -/
def replaceBy (p : Point) : Point → Point :=
  fun q => if q.id == p.id then p else q

/-- Batched upsert, point by point in order. -/
def qdrantUpsert (index : Index) (ps : List Point) : Index :=
  ps.foldl upsertOne index

/-- Deletion by payload filter: removes every matching point. -/
def qdrantDelete (index : Index) (filt : Payload → Bool) : Index :=
  index.filter (fun p => !(filt p.payload))

/-- Descending-score order on scored points. -/
def byScoreDesc (a b : Point × Rat) : Prop := b.2 ≤ a.2

instance : DecidableRel byScoreDesc :=
  fun a b => inferInstanceAs (Decidable (b.2 ≤ a.2))

instance : IsTotal (Point × Rat) byScoreDesc :=
  ⟨fun a b => (le_total a.2 b.2).symm⟩

instance : IsTrans (Point × Rat) byScoreDesc :=
  ⟨fun _ _ _ hab hbc => le_trans hbc hab⟩

/-- Filtered similarity search: score the points accepted by the filter with
the (abstract) similarity to the query vector, rank by descending score and
return at most `limit` of them. -/
def qdrantSearchRaw (index : Index) (filt : Payload → Bool) (sim : Vec → Rat)
    (limit : Nat) : List (Point × Rat) :=
  (List.insertionSort byScoreDesc
    ((index.filter (fun p => filt p.payload)).map (fun p => (p, sim p.vector)))).take limit

/-! ## QdrantService (src/services/qdrant_service.py) -/

/-- Filter built by QdrantService.search (lines 164-171): a single must
condition on workspace_id. -/
def workspaceFilter (workspace_id : Nat) : Payload → Bool :=
  fun pl => pl.workspace_id == workspace_id

/-- Filter built by QdrantService.delete_by_file_id (lines 125-136): must
conditions on both workspace_id and file_id. -/
def scopeFilter (workspace_id file_id : Nat) : Payload → Bool :=
  fun pl => pl.workspace_id == workspace_id && pl.file_id == file_id

/-- Result dictionary shape returned by QdrantService.search (lines 180-190). -/
structure SearchResult where
  id : String
  score : Rat
  text : String
  file_id : Nat
  chunk_index : Nat
  metadata : Metadata
deriving DecidableEq, Repr

/-- Mapping of a scored point to the result dictionary. -/
def toSearchResult (p : Point) (score : Rat) : SearchResult :=
  { id := p.id, score := score, text := p.payload.text, file_id := p.payload.file_id,
    chunk_index := p.payload.chunk_index, metadata := p.payload.metadata }

/-- Chunk record consumed by insert_vectors (qdrant_service.py line 79). -/
structure Chunk where
  text : String
  embedding : Vec
  chunk_index : Nat
  metadata : Metadata
deriving DecidableEq, Repr

/-- Deterministic point id (qdrant_service.py line 87). -/
def pointId (workspace_id file_id chunk_index : Nat) : String :=
  s!"{workspace_id}_{file_id}_{chunk_index}"

/-- Points built by insert_vectors from the chunk records (lines 84-102). -/
def buildPoints (workspace_id file_id : Nat) (chunks : List Chunk) : List Point :=
  chunks.map (fun c =>
    { id := pointId workspace_id file_id c.chunk_index,
      vector := c.embedding,
      payload := { workspace_id := workspace_id, file_id := file_id,
                   chunk_index := c.chunk_index, text := c.text,
                   metadata := c.metadata } })

namespace QdrantService

/-- QdrantService.search (lines 147-190). -/
def search (index : Index) (sim : Vec → Rat) (workspace_id : Nat) (limit : Nat) :
    List SearchResult :=
  (qdrantSearchRaw index (workspaceFilter workspace_id) sim limit).map
    (fun pr => toSearchResult pr.1 pr.2)

/-- QdrantService.delete_by_file_id (lines 113-145); the returned count is the
constant success indicator 1. -/
def delete_by_file_id (index : Index) (workspace_id file_id : Nat) : Index × Nat :=
  (qdrantDelete index (scopeFilter workspace_id file_id), 1)

/-- QdrantService.insert_vectors (lines 67-111): build the points and upsert
them in one batch, returning the number of points. -/
def insert_vectors (index : Index) (workspace_id file_id : Nat) (chunks : List Chunk) :
    Index × Nat :=
  let points := buildPoints workspace_id file_id chunks
  (qdrantUpsert index points, points.length)

end QdrantService

/-! ## Python string primitives

Python-level string operations used by the sources, modelled over the
character list of a Lean string (Python strings are sequences of code
points, as are Lean `Char` lists). -/

/-- Python slicing s[:n]. -/
def pySlice (s : String) (n : Nat) : String := String.mk (s.toList.take n)

/-- Python str.strip() with no arguments: remove leading and trailing
whitespace. -/
def pyStrip (s : String) : String :=
  String.mk (((s.toList.dropWhile Char.isWhitespace).reverse.dropWhile
    Char.isWhitespace).reverse)

/-- Python str.strip(c) for a one-character argument: remove every leading and
trailing occurrence of that character. -/
def stripChar (c : Char) (s : String) : String :=
  String.mk (((s.toList.dropWhile (fun a => a == c)).reverse.dropWhile
    (fun a => a == c)).reverse)

/-- Python str.lower() over the characters (the inputs lowered by the
sources are ASCII extensions and language tags). -/
def pyLower (s : String) : String := String.mk (s.toList.map Char.toLower)

/-- Python str.upper() over the characters. -/
def pyUpper (s : String) : String := String.mk (s.toList.map Char.toUpper)

/-- The double-quote character. -/
def dquote : Char := Char.ofNat 34

/-- The single-quote character. -/
def squote : Char := Char.ofNat 39

/-- Extension part of os.path.splitext for a plain file name (no directory
separators): everything from the last dot on, except that the leading dots of
the name never start an extension. -/
def splitextExt (name : String) : String :=
  let cs := name.toList
  let rest := cs.dropWhile (fun a => a == '.')
  let revRest := rest.reverse
  if revRest.any (fun a => a == '.') then
    String.mk ('.' :: (revRest.takeWhile (fun a => a ≠ '.')).reverse)
  else ""

/-! ## UTF-8 decoding

A concrete strict UTF-8 decoder (RFC 3629: rejects overlong forms,
surrogates and code points above 0x10FFFF), used to instantiate the abstract
codec oracles at concrete byte inputs. -/

/-- Continuation byte test. -/
def utf8Cont (b : Nat) : Bool := 128 ≤ b && b ≤ 191

/-- Strict UTF-8 decoding of a byte list into characters; none on any
malformed input. -/
def utf8DecodeAux : List Nat → Option (List Char)
  | [] => some []
  | b :: rest =>
    if b ≤ 127 then
      (utf8DecodeAux rest).map (fun cs => Char.ofNat b :: cs)
    else if b ≤ 193 then none
    else if b ≤ 223 then
      match rest with
      | b2 :: rest2 =>
        if utf8Cont b2 then
          (utf8DecodeAux rest2).map (fun cs => Char.ofNat ((b - 192) * 64 + (b2 - 128)) :: cs)
        else none
      | [] => none
    else if b ≤ 239 then
      match rest with
      | b2 :: b3 :: rest3 =>
        if utf8Cont b2 && utf8Cont b3 then
          let cp := (b - 224) * 4096 + (b2 - 128) * 64 + (b3 - 128)
          if cp < 2048 || (55296 ≤ cp && cp ≤ 57343) then none
          else (utf8DecodeAux rest3).map (fun cs => Char.ofNat cp :: cs)
        else none
      | _ => none
    else if b ≤ 244 then
      match rest with
      | b2 :: b3 :: b4 :: rest4 =>
        if utf8Cont b2 && utf8Cont b3 && utf8Cont b4 then
          let cp := (b - 240) * 262144 + (b2 - 128) * 4096 + (b3 - 128) * 64 + (b4 - 128)
          if cp < 65536 || 1114111 < cp then none
          else (utf8DecodeAux rest4).map (fun cs => Char.ofNat cp :: cs)
        else none
      | _ => none
    else none

/-- Strict UTF-8 decoding of a byte list into a string. -/
def utf8Decode (bs : List Nat) : Option String := (utf8DecodeAux bs).map String.mk

/-! ## Text Extractor (src/services/document_analyzer.py)

File contents are byte lists; the type-specific parsers backed by external
libraries (PyPDF2, python-docx, openpyxl, python-pptx) are fallible oracle
parameters, and the text codecs used by the plain-text reader are an oracle
(`TextCodec`) because the legacy Korean codecs are large external tables. -/

/-- Oracles for the library-backed document parsers shared by
document_analyzer.py and rag_processor.py. -/
structure Extractors where
  pdf : List Nat → Except String String
  docx : List Nat → Except String String
  xlsx : List Nat → Except String String
  pptx : List Nat → Except String String

/-- The encodings attempted by extract_text_from_txt, in source order
(document_analyzer.py line 111). -/
inductive Enc
  | utf8
  | cp949
  | euckr
  | latin1
deriving DecidableEq, Repr

/-- Attempt order of the codecs. -/
def encodingOrder : List Enc := [.utf8, .cp949, .euckr, .latin1]

/-- Codec oracle: strict decoding per encoding (none meaning a
UnicodeDecodeError) plus the errors-ignored UTF-8 fallback, which always
produces a string. -/
structure TextCodec where
  dec : Enc → List Nat → Option String
  utf8Ignore : List Nat → String

/-- extract_text_from_txt (document_analyzer.py lines 107-122): try the
encodings in order, return the first successful decoding; if every attempt
fails, decode as UTF-8 discarding invalid bytes. -/
def extract_text_from_txt (codec : TextCodec) (content : List Nat) : String :=
  match encodingOrder.findSome? (fun e => codec.dec e content) with
  | some s => s
  | none => codec.utf8Ignore content

/-- extract_text (document_analyzer.py lines 125-146): extension-keyed
dispatch; the extension arrives without a leading dot and is lowercased. -/
def extract_text (ex : Extractors) (hwpO : List Nat → String) (codec : TextCodec)
    (content : List Nat) (extension : String) : Except String String :=
  let ext := pyLower extension
  if ext == "pdf" then ex.pdf content
  else if ext == "doc" || ext == "docx" then ex.docx content
  else if ext == "xls" || ext == "xlsx" then ex.xlsx content
  else if ext == "ppt" || ext == "pptx" then ex.pptx content
  else if ext == "hwp" || ext == "hwpx" then .ok (hwpO content)
  else if ext == "txt" || ext == "log" || ext == "md" || ext == "markdown" then
    .ok (extract_text_from_txt codec content)
  else if ext == "json" || ext == "xml" || ext == "yaml" || ext == "yml" || ext == "csv" then
    .ok (extract_text_from_txt codec content)
  else .error s!"Unsupported file extension: {extension}"

/-- RAGProcessor.extract_text_from_file (rag_processor.py lines 131-160):
its own dispatch over os.path.splitext of the display name; the txt branch
reads the file with encoding utf-8 only and therefore raises a
UnicodeDecodeError on bytes that are not valid UTF-8. -/
def ragExtractTextFromFile (ex : Extractors) (utf8dec : List Nat → Option String)
    (content : List Nat) (file_name : String) : Except String String :=
  let extension := pyLower (splitextExt file_name)
  if extension == ".pdf" then ex.pdf content
  else if extension == ".docx" then ex.docx content
  else if extension == ".xlsx" then ex.xlsx content
  else if extension == ".pptx" then ex.pptx content
  else if extension == ".txt" then
    match utf8dec content with
    | some s => .ok s
    | none => .error "UnicodeDecodeError"
  else .error s!"Unsupported file type: {extension}"

/-! ## Ingestion pipeline (src/services/rag_processor.py) -/

/-- Chunk records built in process_file_for_rag (lines 246-257):
enumerate(zip(chunks, embeddings)) with metadata {file_name, chunk_length}. -/
def chunksData (chunks : List String) (embeddings : List Vec) (file_name : String) :
    List Chunk :=
  ((chunks.zip embeddings).enum).map (fun ie =>
    { text := ie.2.1, embedding := ie.2.2, chunk_index := ie.1,
      metadata := { file_name := file_name, chunk_length := ie.2.1.length } })

/-- Pipeline stages of one ingestion job, in source order. -/
inductive Stage
  | download
  | extractText
  | lengthCheck
  | chunking
  | embedding
  | indexing
deriving DecidableEq, Repr

/-- All six stages in execution order. -/
def allStages : List Stage :=
  [.download, .extractText, .lengthCheck, .chunking, .embedding, .indexing]

/-- Statistics dictionary returned by a successful run (lines 267-274);
the constant success=True field is omitted. -/
structure RagResult where
  workspace_id : Nat
  file_id : Nat
  chunks_count : Nat
  vectors_count : Nat
  text_length : Nat
deriving DecidableEq, Repr

/-- RAGProcessor.process_file_for_rag (lines 200-287). Oracles: the S3
download outcome, the document parsers, the strict UTF-8 codec of the txt
branch, the langchain text splitter, the OpenAI embedding call, and whether
the Qdrant upsert call raises. Returns the job outcome together with the
list of stages that actually ran, in order (the file_key only feeds the
download oracle and is omitted). -/
def process_file_for_rag
    (downloadRes : Except String (List Nat))
    (ex : Extractors) (utf8dec : List Nat → Option String)
    (splitter : String → List String)
    (embedO : List String → Except String (List Vec))
    (upsertErr : Option String)
    (index : Index) (workspace_id file_id : Nat) (file_name : String) :
    (Except String (RagResult × Index)) × List Stage :=
  match downloadRes with
  | .error e => (.error e, [.download])
  | .ok content =>
    match ragExtractTextFromFile ex utf8dec content file_name with
    | .error e => (.error e, [.download, .extractText])
    | .ok text =>
      if text.isEmpty || (pyStrip text).length < 10 then
        (.error "Extracted text is too short or empty",
         [.download, .extractText, .lengthCheck])
      else
        let chunks := splitter text
        if chunks.isEmpty then
          (.error "No chunks created from text",
           [.download, .extractText, .lengthCheck, .chunking])
        else
          match embedO chunks with
          | .error e =>
            (.error e, [.download, .extractText, .lengthCheck, .chunking, .embedding])
          | .ok embeddings =>
            match upsertErr with
            | some e => (.error e, allStages)
            | none =>
              let cd := chunksData chunks embeddings file_name
              let inserted := QdrantService.insert_vectors index workspace_id file_id cd
              (.ok ({ workspace_id := workspace_id, file_id := file_id,
                      chunks_count := chunks.length, vectors_count := inserted.2,
                      text_length := text.length }, inserted.1), allStages)

/-! ## Background task and callback (src/main.py lines 91-135) -/

/-- Callback POST body: either the success payload or the failure payload. -/
inductive CallbackPayload
  | success (file_id chunks_count vectors_count : Nat)
  | failure (file_id : Nat) (error : String)
deriving DecidableEq, Repr

/-- A callback POST attempt and whether its delivery succeeded. -/
structure CallbackAttempt where
  payload : CallbackPayload
  delivered : Bool
deriving DecidableEq, Repr

/-- process_rag_background (main.py lines 91-135): run the pipeline; on
success POST the success payload, but if that POST raises, the outer except
catches the delivery error and POSTs a failure payload carrying the delivery
error text; on pipeline failure POST the failure payload; a failure of the
final POST is logged and swallowed. `postOk` is the delivery oracle and
`postErrText` the text of the delivery exception. Returns the list of POST
attempts in order. -/
def process_rag_background (procResult : Except String RagResult) (file_id : Nat)
    (postOk : CallbackPayload → Bool) (postErrText : String) : List CallbackAttempt :=
  match procResult with
  | .ok result =>
    let cb := CallbackPayload.success file_id result.chunks_count result.vectors_count
    if postOk cb then [⟨cb, true⟩]
    else
      let cb2 := CallbackPayload.failure file_id postErrText
      [⟨cb, false⟩, ⟨cb2, postOk cb2⟩]
  | .error e =>
    let cb2 := CallbackPayload.failure file_id e
    [⟨cb2, postOk cb2⟩]

/-! ## Retrieval and answer composition (src/services/ai_assistant_service.py) -/

/-- Korean system prompt (lines 192-203). -/
def koSystemPrompt : String :=
  "당신은 워크스페이스의 문서를 학습한 AI 어시스턴트입니다.\n\n역할:\n- 제공된 문서 내용을 기반으로 정확하고 도움이 되는 답변을 제공합니다\n- 문서에 없는 내용은 추측하지 말고 \"문서에서 관련 정보를 찾을 수 없습니다\"라고 답변합니다\n- 답변은 친절하고 전문적인 톤으로 작성합니다\n- 가능하면 문서의 구체적인 내용을 인용하여 답변합니다\n\n답변 형식:\n- 명확하고 구조화된 답변\n- 필요시 번호나 불릿 포인트 사용\n- 한국어로 답변"

/-- English system prompt (lines 205-216). -/
def enSystemPrompt : String :=
  "You are an AI assistant trained on workspace documents.\n\nRole:\n- Provide accurate and helpful answers based on the provided documents\n- If information is not in the documents, say \"I couldn\x27t find relevant information in the documents\"\n- Use a friendly and professional tone\n- Cite specific document content when possible\n\nAnswer format:\n- Clear and structured responses\n- Use numbered lists or bullet points when needed\n- Answer in English"

/-- AIAssistantService._get_system_prompt (lines 189-219): prompts.get with
the Korean prompt as default. -/
def get_system_prompt (language : String) : String :=
  if language == "ko" then koSystemPrompt
  else if language == "en" then enSystemPrompt
  else koSystemPrompt

/-- AIAssistantService._get_error_message (lines 221-227): the localized
apology, messages.get with the Korean message as default. -/
def get_error_message (language : String) : String :=
  if language == "ko" then "죄송합니다. 일시적인 오류가 발생했습니다. 잠시 후 다시 시도해주세요."
  else if language == "en" then "Sorry, a temporary error occurred. Please try again later."
  else "죄송합니다. 일시적인 오류가 발생했습니다. 잠시 후 다시 시도해주세요."

/-- One entry of the context block (line 92); `fmt` is the two-decimal float
formatting of the score, abstracted because scores are floats produced by the
vector index. -/
def contextEntry (fmt : Rat → String) (i : Nat) (c : SearchResult) : String :=
  let n := i + 1
  let score_text := fmt c.score
  let chunk_text := c.text
  s!"[문서 {n}] (관련도: {score_text})\n{chunk_text}"

/-- Context block of generate_response (lines 90-96). -/
def buildContextText (fmt : Rat → String) (chunks : List SearchResult) : String :=
  if chunks.isEmpty then "관련 문서를 찾을 수 없습니다."
  else String.intercalate "\n\n" (chunks.enum.map (fun ic => contextEntry fmt ic.1 ic.2))

/-- User turn of the chat completion call (lines 106-112). -/
def userPrompt (context_text query : String) : String :=
  s!"\n다음 문서들을 참고하여 질문에 답변해주세요:\n\n{context_text}\n\n질문: {query}\n"

/-- AIAssistantService.search_knowledge_base (lines 36-69): embed the query
and search the index; any failure of either step is caught and yields the
empty result list. `embedRes` is the embedding-call outcome, `searchErr`
whether the index search call raises, `sim` the cosine similarity. -/
def search_knowledge_base (embedRes : Except String Vec) (searchErr : Option String)
    (index : Index) (sim : Vec → Vec → Rat) (workspace_id limit : Nat) :
    List SearchResult :=
  match embedRes with
  | .error _ => []
  | .ok query_vector =>
    match searchErr with
    | some _ => []
    | none => QdrantService.search index (sim query_vector) workspace_id limit

/-- AIAssistantService.generate_response (lines 71-125): build the context
block and call the chat model; on any failure of that call return the
localized apology instead. `genO` maps (system prompt, user prompt) to the
model-call outcome. -/
def generate_response (genO : String → String → Except String String)
    (fmt : Rat → String) (query : String) (context_chunks : List SearchResult)
    (language : String) : String :=
  let context_text := buildContextText fmt context_chunks
  let system_prompt := get_system_prompt language
  match genO system_prompt (userPrompt context_text query) with
  | .ok answer => answer
  | .error _ => get_error_message language

/-- One entry of the response source list (lines 166-173). -/
structure Source where
  file_id : Nat
  text_preview : String
  score : Rat
deriving DecidableEq, Repr

/-- Chat response dictionary (lines 175-179). -/
structure ChatResponse where
  answer : String
  sources : List Source
  has_context : Bool
deriving DecidableEq, Repr

/-- Source entry built from a retrieved chunk: preview truncated to 200
characters with an ellipsis marker when longer (line 169). -/
def mkSource (c : SearchResult) : Source :=
  { file_id := c.file_id,
    text_preview := if 200 < c.text.length then pySlice c.text 200 ++ "..." else c.text,
    score := c.score }

/-- AIAssistantService.chat (lines 127-187): search, generate, and assemble
the response with at most the top 3 sources. -/
def chat (embedRes : Except String Vec) (searchErr : Option String) (index : Index)
    (sim : Vec → Vec → Rat) (genO : String → String → Except String String)
    (fmt : Rat → String) (workspace_id : Nat) (query language : String)
    (search_limit : Nat) : ChatResponse :=
  let context_chunks :=
    search_knowledge_base embedRes searchErr index sim workspace_id search_limit
  let answer := generate_response genO fmt query context_chunks language
  { answer := answer,
    sources := (context_chunks.take 3).map mkSource,
    has_context := decide (0 < context_chunks.length) }

/-! ## Channel title generation (src/services/llm.py lines 46-86) -/

/-- Title after whitespace stripping, then strip of the double-quote
character, then of the single-quote character (llm.py lines 77-80);
`modelOut` is the raw message content returned by the chat model. -/
def titleStripped (modelOut : String) : String :=
  stripChar squote (stripChar dquote (pyStrip modelOut))

/-- generate_channel_title final result from the raw model output. -/
def generate_channel_title (modelOut : String) : String :=
  let title2 := titleStripped modelOut
  if 50 < title2.length then pySlice title2 47 ++ "..." else title2

/-! ## Document summarization (src/services/document_analyzer.py lines 149-217) -/

/-- Language mapping of summarize_document (lines 159-165): lang_map.get of
the uppercased language with default English. -/
def lang_map_lookup (lang : String) : String :=
  if lang == "KO" then "Korean"
  else if lang == "EN" then "English"
  else if lang == "JA" then "Japanese"
  else if lang == "FR" then "French"
  else "English"

/-- Input truncation of summarize_document (lines 154-156). -/
def truncateForLLM (text : String) : String :=
  if 10000 < text.length then pySlice text 10000 ++ "\n\n[문서가 잘렸습니다...]" else text

/-- The elaborate summarization prompt constructed at lines 168-180; it is
built and then never used. -/
def summaryPrompt (target_language file_name text : String) : String :=
  s!"Analyze and summarize this document in {target_language}.\n\nFile: {file_name}\n\nContent:\n{text}\n\nPlease provide:\n1. Main topic (1-2 sentences)\n2. Key points (3-5 bullet points)\n3. Important keywords\n\nFormat the summary to be clear and concise for a developer chat context."

/-- summarize_document (lines 149-185): truncate the text, map the language,
build the prompt (dead code), and call refine(text, text, lowercased target
language). `refineO` is the refine model call. -/
def summarize_document (refineO : String → String → String → String)
    (text language file_name : String) : String :=
  let text2 := truncateForLLM text
  let target_language := lang_map_lookup (pyUpper language)
  let _prompt := summaryPrompt target_language file_name text2
  refineO text2 text2 (pyLower target_language)

/-! ## Concrete instances used by the witnesses -/

def simHead : Vec → Rat := fun v => v.headD 0

def mdUnit : Metadata := { file_name := "a.txt", chunk_length := 1 }

def pointW1 : Point :=
  { id := "1_10_0", vector := [1],
    payload := { workspace_id := 1, file_id := 10, chunk_index := 0, text := "alpha",
                 metadata := mdUnit } }

def pointW2 : Point :=
  { id := "2_20_0", vector := [9],
    payload := { workspace_id := 2, file_id := 20, chunk_index := 0, text := "beta",
                 metadata := mdUnit } }

def idx0 : Index := [pointW1, pointW2]

def idxNoMatch : Index := [pointW1]

/-- Delivery oracle under which the success POST raises but the failure POST
succeeds. -/
def postOkFailSuccess : CallbackPayload → Bool
  | .success _ _ _ => false
  | .failure _ _ => true

/-- A concrete successful pipeline result. -/
def ragResultDemo : RagResult :=
  { workspace_id := 1, file_id := 7, chunks_count := 2, vectors_count := 2,
    text_length := 100 }

/-- Similarity oracle for chat witnesses: score of a point is the head of its
vector. -/
def simPair : Vec → Vec → Rat := fun _ v => v.headD 0

/-- Generation oracle that always answers. -/
def genOk : String → String → Except String String := fun _ _ => .ok "answer"

/-- Score formatting oracle. -/
def fmt0 : Rat → String := fun _ => "0.00"

/-- A point with a 300-character chunk text in workspace 1. -/
def pointLong : Point :=
  { id := "1_11_0", vector := [3],
    payload := { workspace_id := 1, file_id := 11, chunk_index := 0,
                 text := String.mk (List.replicate 300 'x'), metadata := mdUnit } }

def idxLong : Index := [pointLong]

/-- Parsers that always fail; never consulted on the txt paths. -/
def exNone : Extractors :=
  { pdf := fun _ => .error "", docx := fun _ => .error "",
    xlsx := fun _ => .error "", pptx := fun _ => .error "" }

/-- hwp oracle for witnesses. -/
def hwpNone : List Nat → String := fun _ => ""

/-- Codec whose strict decoders all fail. -/
def codecNone : TextCodec := { dec := fun _ _ => none, utf8Ignore := fun _ => "fallback" }

/-- Codec with only the strict UTF-8 decoder. -/
def codecUtf8Only : TextCodec :=
  { dec := fun e bs => match e with | .utf8 => utf8Decode bs | _ => none,
    utf8Ignore := fun _ => "" }

/-- Codec succeeding only for cp949. -/
def codecCp949Only : TextCodec :=
  { dec := fun e _ => match e with | .cp949 => some "cp949 text" | _ => none,
    utf8Ignore := fun _ => "" }

/-- Codec succeeding only for euc-kr. -/
def codecEuckrOnly : TextCodec :=
  { dec := fun e _ => match e with | .euckr => some "euckr text" | _ => none,
    utf8Ignore := fun _ => "" }

/-- Codec succeeding only for latin-1. -/
def codecLatin1Only : TextCodec :=
  { dec := fun e _ => match e with | .latin1 => some "latin1 text" | _ => none,
    utf8Ignore := fun _ => "" }

/-- Splitter oracle that yields the whole text as one chunk when non-empty. -/
def splitterWhole : String → List String := fun t => if t.isEmpty then [] else [t]

/-- Embedding oracle that assigns the unit vector to every chunk. -/
def embedUnit : List String → Except String (List Vec) :=
  fun ts => .ok (ts.map (fun _ => [(1 : Rat)]))

/-- Bytes of the two-character text hi. -/
def hiBytes : List Nat := [104, 105]

/-- Bytes of the twelve-character text abcdefghijkl. -/
def twelveBytes : List Nat := [97, 98, 99, 100, 101, 102, 103, 104, 105, 106, 107, 108]

/-- The model output wrapped as single quote, double quote, 48 letters,
double quote, single quote (52 characters). -/
def c9Input : String :=
  String.mk ([squote, dquote] ++ List.replicate 48 'a' ++ [dquote, squote])

/-- The letters kept by the quote stripping of c9Input. -/
def c9Stripped : String :=
  String.mk ([dquote] ++ List.replicate 48 'a' ++ [dquote])

/-- A model output longer than 50 characters with no quotes. -/
def c9Long : String := String.mk (List.replicate 60 'a')

/-- The first point built for workspace 1, file 7 from chunks aa and bb. -/
def demoPoint : Point :=
  { id := "1_7_0", vector := [1],
    payload := { workspace_id := 1, file_id := 7, chunk_index := 0, text := "aa",
                 metadata := { file_name := "f.txt", chunk_length := 2 } } }

end Prizm

namespace Prizm

/-! ## C1: workspace-scoped search -/

/-- C1: search scoped to workspace W returns at most limit results, every
returned result comes from an indexed point whose payload has
workspace_id = W, and the results are ordered by descending similarity
score. -/
theorem search_workspace_scoped (index : Index) (sim : Vec → Rat)
    (W limit : Nat) :
    (QdrantService.search index sim W limit).length ≤ limit ∧
    (∀ r ∈ QdrantService.search index sim W limit,
      ∃ p ∈ index, p.payload.workspace_id = W ∧ r = toSearchResult p (sim p.vector)) ∧
    List.Pairwise (fun a b => b.score ≤ a.score) (QdrantService.search index sim W limit) := by
  unfold QdrantService.search qdrantSearchRaw
  refine ⟨?_, ?_, ?_⟩
  · rw [List.length_map, List.length_take]
    exact min_le_left _ _
  · intro r hr
    rw [List.mem_map] at hr
    obtain ⟨pr, hpr, hr⟩ := hr
    have hpr' : pr ∈ List.insertionSort byScoreDesc
        ((index.filter (fun p => workspaceFilter W p.payload)).map (fun p => (p, sim p.vector))) :=
      List.mem_of_mem_take hpr
    rw [(List.perm_insertionSort byScoreDesc _).mem_iff, List.mem_map] at hpr'
    obtain ⟨p, hp, hpr''⟩ := hpr'
    rw [List.mem_filter] at hp
    refine ⟨p, hp.1, ?_, ?_⟩
    · have := hp.2
      simpa [workspaceFilter] using this
    · rw [← hr, ← hpr'']
  · have hsorted : List.Pairwise byScoreDesc
        (List.insertionSort byScoreDesc
          ((index.filter (fun p => workspaceFilter W p.payload)).map (fun p => (p, sim p.vector)))) :=
      List.sorted_insertionSort byScoreDesc _
    have htake := hsorted.sublist (List.take_sublist limit _)
    rw [List.pairwise_map]
    exact htake.imp (fun h => h)

/-- C1 witness: concrete two-workspace index. -/
theorem search_workspace_scoped_witness :
    (QdrantService.search idx0 simHead 1 2).length ≤ 2 ∧
    (∃ p ∈ idx0, p.payload.workspace_id = 1 ∧
      toSearchResult pointW1 1 = toSearchResult p (simHead p.vector)) :=
  ⟨(search_workspace_scoped idx0 simHead 1 2).1,
   (search_workspace_scoped idx0 simHead 1 2).2.1 (toSearchResult pointW1 1) (by decide)⟩

/-! ## C2: deletion scoped to (workspace, file) -/

/-- C2: delete_by_file_id removes exactly the points whose payload matches
both workspace_id = W and file_id = F; all other points remain; when no
point matches the operation is a no-op; searches for a different workspace
are unaffected. -/
theorem delete_by_file_id_scoped (index : Index) (W F : Nat) :
    (∀ p, p ∈ (QdrantService.delete_by_file_id index W F).1 ↔
      p ∈ index ∧ ¬(p.payload.workspace_id = W ∧ p.payload.file_id = F)) ∧
    ((∀ p ∈ index, ¬(p.payload.workspace_id = W ∧ p.payload.file_id = F)) →
      (QdrantService.delete_by_file_id index W F).1 = index) ∧
    (∀ W2, W2 ≠ W → ∀ sim limit,
      QdrantService.search (QdrantService.delete_by_file_id index W F).1 sim W2 limit =
        QdrantService.search index sim W2 limit) := by
  refine ⟨?_, ?_, ?_⟩
  · intro p
    unfold QdrantService.delete_by_file_id qdrantDelete
    rw [List.mem_filter]
    simp only [scopeFilter, Bool.not_eq_eq_eq_not, Bool.not_true, Bool.and_eq_false_imp,
      beq_iff_eq, beq_eq_false_iff_ne, ne_eq]
    constructor
    · rintro ⟨hmem, h⟩
      exact ⟨hmem, fun ⟨h1, h2⟩ => h h1 h2⟩
    · rintro ⟨hmem, h⟩
      exact ⟨hmem, fun h1 h2 => h ⟨h1, h2⟩⟩
  · intro h
    unfold QdrantService.delete_by_file_id qdrantDelete
    simp only []
    rw [List.filter_eq_self]
    intro p hp
    have := h p hp
    simp [scopeFilter]
    tauto
  · intro W2 hW2 sim limit
    unfold QdrantService.search qdrantSearchRaw QdrantService.delete_by_file_id qdrantDelete
    congr 1
    congr 1
    congr 1
    congr 1
    rw [List.filter_filter]
    apply List.filter_congr
    intro p _
    by_cases hws : p.payload.workspace_id = W2
    · have : p.payload.workspace_id ≠ W := by rw [hws]; exact hW2
      simp only [workspaceFilter, scopeFilter, hws, beq_self_eq_true, Bool.true_and]
      simp [hW2]
    · simp [workspaceFilter, scopeFilter, hws]

/-- C2 witness: deleting (workspace 3, file 30) from an index holding only a
point of (workspace 1, file 10) is a no-op, and a point of another workspace
stays searchable. -/
theorem delete_by_file_id_scoped_witness :
    ((QdrantService.delete_by_file_id idxNoMatch 3 30).1 = idxNoMatch) ∧
    (QdrantService.search (QdrantService.delete_by_file_id idx0 1 10).1 simHead 2 5 =
      QdrantService.search idx0 simHead 2 5) :=
  ⟨(delete_by_file_id_scoped idxNoMatch 3 30).2.1 (by decide),
   (delete_by_file_id_scoped idx0 1 10).2.2 2 (by decide) simHead 5⟩

/-! ## C10: the summary does not depend on the file name -/

/-- C10: for every extracted text, summary language and any two file names,
summarize_document returns the same summary: the only model call made is
refine(truncated text, truncated text, mapped target language); the
constructed summarization prompt is never passed to the model. -/
theorem summarize_document_independent_of_file_name
    (refineO : String → String → String → String) (text language fn1 fn2 : String) :
    summarize_document refineO text language fn1 =
      refineO (truncateForLLM text) (truncateForLLM text)
        (pyLower (lang_map_lookup (pyUpper language))) ∧
    summarize_document refineO text language fn1 =
      summarize_document refineO text language fn2 :=
  ⟨rfl, rfl⟩

/-! ## C6: graceful degradation of the chat path -/

/-- C6: a failure of query embedding or of the vector search makes the
retrieved-context set empty instead of failing the request; a failure of the
generative call makes the answer the localized apology; and the chat answer
is always either a successful model output or the localized apology, never a
raw error. -/
theorem chat_degrades_gracefully (index : Index) (sim : Vec → Vec → Rat)
    (fmt : Rat → String) (W lim : Nat) (q lang : String) :
    (∀ e searchErr, search_knowledge_base (.error e) searchErr index sim W lim = []) ∧
    (∀ v e, search_knowledge_base (.ok v) (some e) index sim W lim = []) ∧
    (∀ e chunks, generate_response (fun _ _ => .error e) fmt q chunks lang =
      get_error_message lang) ∧
    (∀ embedRes searchErr genO,
      (chat embedRes searchErr index sim genO fmt W q lang lim).answer =
          get_error_message lang ∨
        ∃ out, (chat embedRes searchErr index sim genO fmt W q lang lim).answer = out ∧
          genO (get_system_prompt lang)
            (userPrompt
              (buildContextText fmt
                (search_knowledge_base embedRes searchErr index sim W lim)) q) =
            .ok out) := by
  refine ⟨fun _ _ => rfl, fun _ _ => rfl, fun _ _ => rfl, ?_⟩
  intro embedRes searchErr genO
  rcases hg : genO (get_system_prompt lang)
      (userPrompt
        (buildContextText fmt
          (search_knowledge_base embedRes searchErr index sim W lim)) q) with e | out
  · left
    simp [chat, generate_response, hg]
  · right
    refine ⟨out, ?_, rfl⟩
    simp [chat, generate_response, hg]

/-! ## C3: callback delivery -/

/-- C3 counterexample: when the pipeline succeeds but the success-callback
POST raises, the code attempts a second callback POST — a FAILURE payload
carrying the delivery error text — so more than one callback POST is
attempted (and here the delivered callback reports FAILURE for a successful
job), contradicting the claim that exactly one callback POST is sent with no
additional callback after a delivery failure. -/
theorem callback_second_post_after_delivery_failure :
    (process_rag_background (.ok ragResultDemo) 7 postOkFailSuccess "connect timeout").length
        = 2 ∧
    (process_rag_background (.ok ragResultDemo) 7 postOkFailSuccess "connect timeout").getLast?
        = some ⟨.failure 7 "connect timeout", true⟩ := by
  constructor <;> rfl

/-- C3 amended: on pipeline failure exactly one callback POST is attempted
(the FAILURE payload, a delivery failure of which is swallowed); on pipeline
success exactly one POST is attempted when the success delivery succeeds,
and when the success delivery raises, exactly one additional FAILURE POST
carrying the delivery error text is attempted, whose own failure is
swallowed; between one and two POSTs are ever attempted. -/
theorem callback_attempts (fid : Nat) (postOk : CallbackPayload → Bool)
    (perr msg : String) (result : RagResult) (procResult : Except String RagResult) :
    (process_rag_background (.error msg) fid postOk perr =
      [⟨.failure fid msg, postOk (.failure fid msg)⟩]) ∧
    (process_rag_background (.ok result) fid postOk perr =
      if postOk (.success fid result.chunks_count result.vectors_count) then
        [⟨.success fid result.chunks_count result.vectors_count, true⟩]
      else
        [⟨.success fid result.chunks_count result.vectors_count, false⟩,
         ⟨.failure fid perr, postOk (.failure fid perr)⟩]) ∧
    1 ≤ (process_rag_background procResult fid postOk perr).length ∧
    (process_rag_background procResult fid postOk perr).length ≤ 2 := by
  refine ⟨rfl, ?_, ?_, ?_⟩
  · by_cases h : postOk (.success fid result.chunks_count result.vectors_count)
    · simp [process_rag_background, h]
    · simp [process_rag_background, h]
  · rcases procResult with e | result2
    · simp [process_rag_background]
    · by_cases h : postOk (.success fid result2.chunks_count result2.vectors_count) <;>
        simp [process_rag_background, h]
  · rcases procResult with e | result2
    · simp [process_rag_background]
    · by_cases h : postOk (.success fid result2.chunks_count result2.vectors_count) <;>
        simp [process_rag_background, h]

/-! ## C7: source list and has_context -/

/-- C7: the source list is the top (at most) 3 retrieved results in ranked
order, each exposing the file id, the score, and a preview truncated to 200
characters with an ellipsis marker appended exactly when the chunk text
exceeds 200 characters; has_context is true iff the retrieved-context set
(before truncation to 3) is non-empty; a workspace with no indexed points
yields has_context false and an empty source list. -/
theorem chat_sources_and_context (embedRes : Except String Vec)
    (searchErr : Option String) (index : Index) (sim : Vec → Vec → Rat)
    (genO : String → String → Except String String) (fmt : Rat → String)
    (W : Nat) (q lang : String) (lim : Nat) :
    ((chat embedRes searchErr index sim genO fmt W q lang lim).sources =
      ((search_knowledge_base embedRes searchErr index sim W lim).take 3).map mkSource) ∧
    ((chat embedRes searchErr index sim genO fmt W q lang lim).sources.length ≤ 3) ∧
    ((chat embedRes searchErr index sim genO fmt W q lang lim).has_context = true ↔
      search_knowledge_base embedRes searchErr index sim W lim ≠ []) ∧
    (∀ c ∈ search_knowledge_base embedRes searchErr index sim W lim,
      (mkSource c).file_id = c.file_id ∧ (mkSource c).score = c.score ∧
      (c.text.length ≤ 200 → (mkSource c).text_preview = c.text) ∧
      (200 < c.text.length → (mkSource c).text_preview = pySlice c.text 200 ++ "...")) ∧
    ((∀ p ∈ index, p.payload.workspace_id ≠ W) → ∀ v,
      (chat (.ok v) none index sim genO fmt W q lang lim).sources = [] ∧
      (chat (.ok v) none index sim genO fmt W q lang lim).has_context = false) := by
  refine ⟨rfl, ?_, ?_, ?_, ?_⟩
  · show (((search_knowledge_base embedRes searchErr index sim W lim).take 3).map
      mkSource).length ≤ 3
    rw [List.length_map, List.length_take]
    exact min_le_left _ _
  · show decide (0 < (search_knowledge_base embedRes searchErr index sim W lim).length)
      = true ↔ _
    simp [List.length_pos]
  · intro c _
    refine ⟨rfl, rfl, ?_, ?_⟩
    · intro h
      have : ¬(200 < c.text.length) := not_lt.mpr h
      simp [mkSource, this]
    · intro h
      simp [mkSource, h]
  · intro hempty v
    have hsearch : search_knowledge_base (.ok v) none index sim W lim = [] := by
      show QdrantService.search index (sim v) W lim = []
      unfold QdrantService.search qdrantSearchRaw
      have hfil : index.filter (fun p => workspaceFilter W p.payload) = [] := by
        rw [List.filter_eq_nil_iff]
        intro p hp
        have := hempty p hp
        simp [workspaceFilter, this]
      rw [hfil]
      simp
    constructor
    · show ((search_knowledge_base (.ok v) none index sim W lim).take 3).map mkSource = []
      rw [hsearch]
      rfl
    · show decide (0 < (search_knowledge_base (.ok v) none index sim W lim).length) = false
      rw [hsearch]
      rfl

set_option maxRecDepth 8192 in
/-- C7 witness: an index holding only a point of workspace 2 yields no
sources and has_context false for workspace 1, and a 300-character chunk of
workspace 1 gets the ellipsis-marked 200-character preview. -/
theorem chat_sources_and_context_witness :
    ((chat (.ok [1]) none [pointW2] simPair genOk fmt0 1 "q" "ko" 5).sources = [] ∧
      (chat (.ok [1]) none [pointW2] simPair genOk fmt0 1 "q" "ko" 5).has_context = false) ∧
    ((mkSource (toSearchResult pointLong 3)).text_preview =
      pySlice (toSearchResult pointLong 3).text 200 ++ "...") :=
  ⟨((chat_sources_and_context (.ok [1]) none [pointW2] simPair genOk fmt0 1 "q" "ko"
      5).2.2.2.2 (by decide) [1]),
   ((chat_sources_and_context (.ok [3]) none idxLong simPair genOk fmt0 1 "q" "ko"
      5).2.2.2.1 (toSearchResult pointLong 3) (by decide)).2.2.2 (by decide)⟩

/-! ## C9: channel title generation -/

/-- Helper: the head of a dropWhile result does not satisfy the dropped
predicate. -/
theorem head?_dropWhile_not {α : Type} (p : α → Bool) (l : List α) {x : α}
    (h : (l.dropWhile p).head? = some x) : p x = false := by
  induction l with
  | nil => simp [List.dropWhile] at h
  | cons a t ih =>
    rw [List.dropWhile_cons] at h
    by_cases hp : p a
    · rw [if_pos hp] at h
      exact ih h
    · rw [if_neg hp] at h
      simp only [List.head?_cons, Option.some.injEq] at h
      rw [← h]
      exact Bool.not_eq_true _ ▸ (by simpa using hp)

/-- Helper: a non-empty suffix has the same last element as the whole list. -/
theorem getLast?_of_suffix {α : Type} {l₁ l₂ : List α} (h : l₁ <:+ l₂)
    (hne : l₁ ≠ []) : l₂.getLast? = l₁.getLast? := by
  obtain ⟨t, rfl⟩ := h
  exact List.getLast?_append_of_ne_nil t hne

/-- Helper: after stripping a character from both ends the first character is
not that character. -/
theorem stripChar_head?_ne (c : Char) (s : String) :
    (stripChar c s).toList.head? ≠ some c := by
  intro h
  have hL : (stripChar c s).toList =
      ((s.toList.dropWhile (fun a => a == c)).reverse.dropWhile
        (fun a => a == c)).reverse := rfl
  rw [hL, List.head?_reverse] at h
  rcases hd : (s.toList.dropWhile (fun a => a == c)).reverse.dropWhile (fun a => a == c)
    with _ | ⟨a, t⟩
  · rw [hd] at h
    simp at h
  · have hne : (s.toList.dropWhile (fun a => a == c)).reverse.dropWhile
        (fun a => a == c) ≠ [] := by
      rw [hd]
      simp
    have hlast : ((s.toList.dropWhile (fun a => a == c)).reverse).getLast? = some c := by
      rw [getLast?_of_suffix (List.dropWhile_suffix (fun a => a == c)) hne]
      exact h
    rw [List.getLast?_reverse] at hlast
    have := head?_dropWhile_not _ _ hlast
    simp at this

/-- Helper: after stripping a character from both ends the last character is
not that character. -/
theorem stripChar_getLast?_ne (c : Char) (s : String) :
    (stripChar c s).toList.getLast? ≠ some c := by
  intro h
  have hL : (stripChar c s).toList =
      ((s.toList.dropWhile (fun a => a == c)).reverse.dropWhile
        (fun a => a == c)).reverse := rfl
  rw [hL, List.getLast?_reverse] at h
  have := head?_dropWhile_not _ _ h
  simp at this

/-- Helper: length of a Python slice. -/
theorem pySlice_length (s : String) (n : Nat) : (pySlice s n).length = min n s.length := by
  show (s.toList.take n).length = min n s.length
  rw [List.length_take]
  rfl

/-- Helper: a positive take keeps the head. -/
theorem head?_take {α : Type} {n : Nat} (hn : 0 < n) (l : List α) :
    (l.take n).head? = l.head? := by
  cases l with
  | nil => simp
  | cons a t =>
    cases n with
    | zero => omega
    | succ m => simp [List.take_succ_cons]

set_option maxRecDepth 8192 in
/-- C9 counterexample: for the model output consisting of a single quote, a
double quote, 48 letters, a double quote and a single quote, the generated
title keeps a leading and a trailing double-quote character, and although
the trimmed model output has 52 characters (more than 50) no ellipsis
truncation happens — contradicting the claim that the title has no leading
or trailing quote characters and is truncated iff the trimmed model output
exceeds 50 characters. -/
theorem generate_channel_title_keeps_quotes :
    (generate_channel_title c9Input).toList.head? = some dquote ∧
    (generate_channel_title c9Input).toList.getLast? = some dquote ∧
    (pyStrip c9Input).length = 52 ∧
    generate_channel_title c9Input = c9Stripped := by
  refine ⟨?_, ?_, ?_, ?_⟩ <;> decide

/-- C9 corrected: the generated channel title has at most 50 characters and
no leading or trailing single-quote character (double quotes are stripped
before single quotes, so a double quote nested inside single quotes can
survive at either end), and it is truncated with an ellipsis marker iff the
title after trimming and quote-stripping exceeds 50 characters. -/
theorem generate_channel_title_constraints (modelOut : String) :
    (generate_channel_title modelOut).length ≤ 50 ∧
    (generate_channel_title modelOut).toList.head? ≠ some squote ∧
    (generate_channel_title modelOut).toList.getLast? ≠ some squote ∧
    ((titleStripped modelOut).length ≤ 50 →
      generate_channel_title modelOut = titleStripped modelOut) ∧
    (50 < (titleStripped modelOut).length →
      generate_channel_title modelOut = pySlice (titleStripped modelOut) 47 ++ "...") := by
  by_cases h : 50 < (titleStripped modelOut).length
  · have heq : generate_channel_title modelOut =
        pySlice (titleStripped modelOut) 47 ++ "..." := by
      show (if 50 < (titleStripped modelOut).length then
        pySlice (titleStripped modelOut) 47 ++ "..." else titleStripped modelOut) = _
      rw [if_pos h]
    have h47 : 47 ≤ (titleStripped modelOut).length := by omega
    refine ⟨?_, ?_, ?_, ?_, fun _ => heq⟩
    · rw [heq, String.length_append, pySlice_length, min_eq_left h47]
      rfl
    · rw [heq]
      have htl : (pySlice (titleStripped modelOut) 47 ++ "...").toList =
          (titleStripped modelOut).toList.take 47 ++ "...".toList := rfl
      rw [htl]
      have hne : (titleStripped modelOut).toList.take 47 ≠ [] := by
        apply List.ne_nil_of_length_pos
        rw [List.length_take]
        have hlen : (titleStripped modelOut).toList.length = (titleStripped modelOut).length :=
          rfl
        omega
      rw [List.head?_append_of_ne_nil _ hne, head?_take (by omega)]
      exact stripChar_head?_ne squote (stripChar dquote (pyStrip modelOut))
    · rw [heq]
      have htl : (pySlice (titleStripped modelOut) 47 ++ "...").toList =
          (titleStripped modelOut).toList.take 47 ++ "...".toList := rfl
      rw [htl, List.getLast?_append_of_ne_nil _ (by decide)]
      decide
    · intro h4
      exact absurd h (not_lt.mpr h4)
  · have heq2 : generate_channel_title modelOut = titleStripped modelOut := by
      show (if 50 < (titleStripped modelOut).length then
        pySlice (titleStripped modelOut) 47 ++ "..." else titleStripped modelOut) = _
      rw [if_neg h]
    refine ⟨?_, ?_, ?_, fun _ => heq2, fun h5 => absurd h5 h⟩
    · rw [heq2]
      exact not_lt.mp h
    · rw [heq2]
      exact stripChar_head?_ne squote (stripChar dquote (pyStrip modelOut))
    · rw [heq2]
      exact stripChar_getLast?_ne squote (stripChar dquote (pyStrip modelOut))

/-- C9 witness: a short output is kept as stripped, a 60-character output is
truncated to 47 characters plus the ellipsis. -/
theorem generate_channel_title_constraints_witness :
    generate_channel_title "hello" = titleStripped "hello" ∧
    generate_channel_title c9Long = pySlice (titleStripped c9Long) 47 ++ "..." :=
  ⟨(generate_channel_title_constraints "hello").2.2.2.1 (by decide),
   (generate_channel_title_constraints c9Long).2.2.2.2 (by decide)⟩

/-! ## C8: plain-text decoding -/

/-- C8 counterexample: the RAG pipeline extractor (RAGProcessor.
extract_text_from_file), cited by the claim, reads a .txt file strictly as
UTF-8 with no encoding fallback: on the single byte 255, which is not valid
UTF-8, it raises a UnicodeDecodeError instead of falling back to the legacy
Korean encodings or Latin-1 — contradicting the claim that text extraction
of these formats never raises a decode error. -/
theorem rag_txt_strict_utf8_decode_error :
    ragExtractTextFromFile exNone utf8Decode [255] "notes.txt" =
      .error "UnicodeDecodeError" := by
  rfl

/-- C8 corrected: in the document-analysis extractor (extract_text /
extract_text_from_txt) the claim holds: the bytes are decoded by attempting
UTF-8, then cp949, then euc-kr, then Latin-1 in that order, returning the
first decoding that succeeds; if all four fail the UTF-8 errors-ignored
fallback is used, so extraction of the plain-text formats (txt, log, md,
csv, json, xml, yaml) never raises a decode error there; the RAG pipeline
extractor, by contrast, handles only .txt of these formats and decodes it
strictly as UTF-8 (raising on undecodable bytes). -/
theorem txt_decoding_order (codec : TextCodec) (content : List Nat)
    (ex : Extractors) (hwpO : List Nat → String) (s : String) :
    (codec.dec .utf8 content = some s → extract_text_from_txt codec content = s) ∧
    (codec.dec .utf8 content = none → codec.dec .cp949 content = some s →
      extract_text_from_txt codec content = s) ∧
    (codec.dec .utf8 content = none → codec.dec .cp949 content = none →
      codec.dec .euckr content = some s → extract_text_from_txt codec content = s) ∧
    (codec.dec .utf8 content = none → codec.dec .cp949 content = none →
      codec.dec .euckr content = none → codec.dec .latin1 content = some s →
      extract_text_from_txt codec content = s) ∧
    (codec.dec .utf8 content = none → codec.dec .cp949 content = none →
      codec.dec .euckr content = none → codec.dec .latin1 content = none →
      extract_text_from_txt codec content = codec.utf8Ignore content) ∧
    (extract_text ex hwpO codec content "txt" =
        .ok (extract_text_from_txt codec content) ∧
      extract_text ex hwpO codec content "log" =
        .ok (extract_text_from_txt codec content) ∧
      extract_text ex hwpO codec content "md" =
        .ok (extract_text_from_txt codec content) ∧
      extract_text ex hwpO codec content "csv" =
        .ok (extract_text_from_txt codec content) ∧
      extract_text ex hwpO codec content "json" =
        .ok (extract_text_from_txt codec content) ∧
      extract_text ex hwpO codec content "xml" =
        .ok (extract_text_from_txt codec content) ∧
      extract_text ex hwpO codec content "yaml" =
        .ok (extract_text_from_txt codec content)) ∧
    (∀ u name, pyLower (splitextExt name) = ".txt" →
      ragExtractTextFromFile ex u content name =
        match u content with
        | some t => .ok t
        | none => .error "UnicodeDecodeError") := by
  refine ⟨?_, ?_, ?_, ?_, ?_, ?_, ?_⟩
  · intro h1
    simp [extract_text_from_txt, encodingOrder, h1]
  · intro h1 h2
    simp [extract_text_from_txt, encodingOrder, h1, h2]
  · intro h1 h2 h3
    simp [extract_text_from_txt, encodingOrder, h1, h2, h3]
  · intro h1 h2 h3 h4
    simp [extract_text_from_txt, encodingOrder, h1, h2, h3, h4]
  · intro h1 h2 h3 h4
    simp [extract_text_from_txt, encodingOrder, h1, h2, h3, h4]
  · exact ⟨rfl, rfl, rfl, rfl, rfl, rfl, rfl⟩
  · intro u name hext
    unfold ragExtractTextFromFile
    rw [hext]
    rfl

/-- C8 witness: each decoding priority exercised by a concrete codec, and
the strict-UTF-8 txt branch of the RAG extractor at a concrete file name. -/
theorem txt_decoding_order_witness :
    (extract_text_from_txt codecUtf8Only hiBytes = "hi") ∧
    (extract_text_from_txt codecCp949Only hiBytes = "cp949 text") ∧
    (extract_text_from_txt codecEuckrOnly hiBytes = "euckr text") ∧
    (extract_text_from_txt codecLatin1Only hiBytes = "latin1 text") ∧
    (extract_text_from_txt codecNone hiBytes = "fallback") ∧
    (ragExtractTextFromFile exNone utf8Decode hiBytes "notes.txt" = .ok "hi") :=
  ⟨(txt_decoding_order codecUtf8Only hiBytes exNone hwpNone "hi").1 (by decide),
   (txt_decoding_order codecCp949Only hiBytes exNone hwpNone "cp949 text").2.1
     (by decide) (by decide),
   (txt_decoding_order codecEuckrOnly hiBytes exNone hwpNone "euckr text").2.2.1
     (by decide) (by decide) (by decide),
   (txt_decoding_order codecLatin1Only hiBytes exNone hwpNone "latin1 text").2.2.2.1
     (by decide) (by decide) (by decide) (by decide),
   (txt_decoding_order codecNone hiBytes exNone hwpNone "unused").2.2.2.2.1
     (by decide) (by decide) (by decide) (by decide),
   by
    have h := (txt_decoding_order codecNone hiBytes exNone hwpNone "unused").2.2.2.2.2.2
      utf8Decode "notes.txt" (by decide)
    rw [h]
    rfl⟩

/-! ## C4: strictly sequential, non-retrying pipeline -/

/-- C4: within one ingestion job the stages run strictly sequentially with
no retry: the first failure at any stage yields that error and stops (the
executed-stage trace is the corresponding prefix of the stage order, and the
outcome does not depend on any later oracle); the job fails when the
trimmed extracted text has fewer than 10 characters, and fails when chunking
produces zero chunks; when every stage succeeds all six stages run and the
statistics are returned. -/
theorem pipeline_first_failure_aborts (ex : Extractors)
    (u : List Nat → Option String) (splitter : String → List String)
    (embedO : List String → Except String (List Vec)) (upsertErr : Option String)
    (index : Index) (W F : Nat) (fn : String) :
    (∀ e, process_file_for_rag (.error e) ex u splitter embedO upsertErr index W F fn =
      (.error e, [.download])) ∧
    (∀ content e, ragExtractTextFromFile ex u content fn = .error e →
      process_file_for_rag (.ok content) ex u splitter embedO upsertErr index W F fn =
        (.error e, [.download, .extractText])) ∧
    (∀ content text, ragExtractTextFromFile ex u content fn = .ok text →
      (pyStrip text).length < 10 →
      process_file_for_rag (.ok content) ex u splitter embedO upsertErr index W F fn =
        (.error "Extracted text is too short or empty",
         [.download, .extractText, .lengthCheck])) ∧
    (∀ content text, ragExtractTextFromFile ex u content fn = .ok text →
      10 ≤ (pyStrip text).length → splitter text = [] →
      process_file_for_rag (.ok content) ex u splitter embedO upsertErr index W F fn =
        (.error "No chunks created from text",
         [.download, .extractText, .lengthCheck, .chunking])) ∧
    (∀ content text e, ragExtractTextFromFile ex u content fn = .ok text →
      10 ≤ (pyStrip text).length → splitter text ≠ [] →
      embedO (splitter text) = .error e →
      process_file_for_rag (.ok content) ex u splitter embedO upsertErr index W F fn =
        (.error e, [.download, .extractText, .lengthCheck, .chunking, .embedding])) ∧
    (∀ content text embeddings e, ragExtractTextFromFile ex u content fn = .ok text →
      10 ≤ (pyStrip text).length → splitter text ≠ [] →
      embedO (splitter text) = .ok embeddings → upsertErr = some e →
      process_file_for_rag (.ok content) ex u splitter embedO upsertErr index W F fn =
        (.error e, allStages)) ∧
    (∀ content text embeddings, ragExtractTextFromFile ex u content fn = .ok text →
      10 ≤ (pyStrip text).length → splitter text ≠ [] →
      embedO (splitter text) = .ok embeddings → upsertErr = none →
      embeddings.length = (splitter text).length →
      process_file_for_rag (.ok content) ex u splitter embedO upsertErr index W F fn =
        (.ok ({ workspace_id := W, file_id := F, chunks_count := (splitter text).length,
                vectors_count := (splitter text).length, text_length := text.length },
              qdrantUpsert index
                (buildPoints W F (chunksData (splitter text) embeddings fn))),
         allStages)) := by
  have hempty_of_isEmpty : ∀ text : String, text.isEmpty = true → pyStrip text = "" := by
    intro text htxt
    rw [String.isEmpty_iff] at htxt
    rw [htxt]
    rfl
  have hnotEmpty : ∀ text : String, 10 ≤ (pyStrip text).length → text.isEmpty = false := by
    intro text h10
    by_contra hcon
    have : text.isEmpty = true := by
      revert hcon
      cases text.isEmpty <;> simp
    rw [hempty_of_isEmpty text this] at h10
    simp at h10
  refine ⟨fun e => rfl, ?_, ?_, ?_, ?_, ?_, ?_⟩
  · intro content e hext
    simp [process_file_for_rag, hext]
  · intro content text hext h10
    simp [process_file_for_rag, hext, h10]
  · intro content text hext h10 hchunks
    have h1 := hnotEmpty text h10
    have h2 : ¬((pyStrip text).length < 10) := not_lt.mpr h10
    simp [process_file_for_rag, hext, h1, h2, hchunks]
  · intro content text e hext h10 hchunks hembed
    have h1 := hnotEmpty text h10
    have h2 : ¬((pyStrip text).length < 10) := not_lt.mpr h10
    have h3 : (splitter text).isEmpty = false := by
      cases hsp : splitter text with
      | nil => exact absurd hsp hchunks
      | cons a t => rfl
    simp [process_file_for_rag, hext, h1, h2, h3, hembed]
  · intro content text embeddings e hext h10 hchunks hembed hup
    have h1 := hnotEmpty text h10
    have h2 : ¬((pyStrip text).length < 10) := not_lt.mpr h10
    have h3 : (splitter text).isEmpty = false := by
      cases hsp : splitter text with
      | nil => exact absurd hsp hchunks
      | cons a t => rfl
    simp [process_file_for_rag, hext, h1, h2, h3, hembed, hup]
  · intro content text embeddings hext h10 hchunks hembed hup hlen
    have h1 := hnotEmpty text h10
    have h2 : ¬((pyStrip text).length < 10) := not_lt.mpr h10
    have h3 : (splitter text).isEmpty = false := by
      cases hsp : splitter text with
      | nil => exact absurd hsp hchunks
      | cons a t => rfl
    simp [process_file_for_rag, hext, h1, h2, h3, hembed, hup,
      QdrantService.insert_vectors, buildPoints, chunksData, hlen]

/-- C4 witness: concrete runs of the pipeline — a download failure stops at
the download stage, a two-character text fails the length check, and a
twelve-character text runs all six stages. -/
theorem pipeline_first_failure_aborts_witness :
    (process_file_for_rag (.error "download failed") exNone utf8Decode splitterWhole
        embedUnit none [] 1 7 "notes.txt" = (.error "download failed", [.download])) ∧
    (process_file_for_rag (.ok hiBytes) exNone utf8Decode splitterWhole embedUnit none
        [] 1 7 "notes.txt" =
      (.error "Extracted text is too short or empty",
       [.download, .extractText, .lengthCheck])) ∧
    ((process_file_for_rag (.ok twelveBytes) exNone utf8Decode splitterWhole embedUnit
        none [] 1 7 "notes.txt").2 = allStages) :=
  ⟨(pipeline_first_failure_aborts exNone utf8Decode splitterWhole embedUnit none []
      1 7 "notes.txt").1 "download failed",
   (pipeline_first_failure_aborts exNone utf8Decode splitterWhole embedUnit none []
      1 7 "notes.txt").2.2.1 hiBytes "hi" rfl (by decide),
   by
    rw [(pipeline_first_failure_aborts exNone utf8Decode splitterWhole embedUnit none []
      1 7 "notes.txt").2.2.2.2.2.2 twelveBytes "abcdefghijkl" [[1]] rfl (by decide)
      (by decide) rfl rfl (by decide)]⟩

/-! ## C5: deterministic ids and idempotent upsert

Helper development: the batched id-keyed upsert of the vector index is
idempotent — re-upserting the same batch leaves the collection unchanged —
and it preserves distinctness of point ids. -/

/-- Helper: the membership test of upsertOne decides id membership. -/
theorem any_id_eq_true_iff (A : Index) (p : Point) :
    (A.any (fun q => q.id == p.id) = true) ↔ p.id ∈ indexIds A := by
  rw [List.any_eq_true]
  unfold indexIds
  rw [List.mem_map]
  constructor
  · rintro ⟨q, hq, he⟩
    exact ⟨q, hq, eq_of_beq he⟩
  · rintro ⟨q, hq, he⟩
    exact ⟨q, hq, beq_iff_eq.mpr he⟩

/-- Helper: upsertOne replaces when the id is present. -/
theorem upsertOne_of_mem {A : Index} {p : Point} (h : p.id ∈ indexIds A) :
    upsertOne A p = A.map (replaceBy p) := by
  unfold upsertOne
  rw [if_pos ((any_id_eq_true_iff A p).mpr h)]
  rfl

/-- Helper: upsertOne appends when the id is absent. -/
theorem upsertOne_of_not_mem {A : Index} {p : Point} (h : p.id ∉ indexIds A) :
    upsertOne A p = A ++ [p] := by
  unfold upsertOne
  rw [if_neg (fun hc => h ((any_id_eq_true_iff A p).mp hc))]

/-- Helper: a replacing upsert does not change the id list. -/
theorem indexIds_upsertOne_of_mem {A : Index} {p : Point} (h : p.id ∈ indexIds A) :
    indexIds (upsertOne A p) = indexIds A := by
  rw [upsertOne_of_mem h]
  unfold indexIds
  rw [List.map_map]
  apply List.map_congr_left
  intro q _
  show (replaceBy p q).id = q.id
  unfold replaceBy
  by_cases hq : (q.id == p.id) = true
  · rw [if_pos hq]
    exact (eq_of_beq hq).symm
  · rw [if_neg hq]

/-- Helper: upsertOne only grows the id list. -/
theorem indexIds_upsertOne_sub (A : Index) (p : Point) :
    indexIds A ⊆ indexIds (upsertOne A p) := by
  by_cases h : p.id ∈ indexIds A
  · rw [indexIds_upsertOne_of_mem h]
    exact fun s hs => hs
  · rw [upsertOne_of_not_mem h]
    unfold indexIds
    rw [List.map_append]
    exact List.subset_append_left _ _

/-- Helper: after upsertOne the upserted id is present. -/
theorem id_mem_indexIds_upsertOne (A : Index) (p : Point) :
    p.id ∈ indexIds (upsertOne A p) := by
  by_cases h : p.id ∈ indexIds A
  · rw [indexIds_upsertOne_of_mem h]
    exact h
  · rw [upsertOne_of_not_mem h]
    unfold indexIds
    simp

/-- Helper: a batched upsert only grows the id list. -/
theorem indexIds_qdrantUpsert_sub (ps : List Point) : ∀ A : Index,
    indexIds A ⊆ indexIds (qdrantUpsert A ps) := by
  induction ps with
  | nil => exact fun A _ hs => hs
  | cons p t ih =>
    intro A
    exact (indexIds_upsertOne_sub A p).trans (ih (upsertOne A p))

/-- Helper: after a batched upsert every upserted id is present. -/
theorem mem_ids_qdrantUpsert {ps : List Point} {r : Point} (hr : r ∈ ps) :
    ∀ A : Index, r.id ∈ indexIds (qdrantUpsert A ps) := by
  induction ps with
  | nil => cases hr
  | cons p t ih =>
    intro A
    rcases List.mem_cons.mp hr with heq | hmem
    · subst heq
      exact indexIds_qdrantUpsert_sub t (upsertOne A r) (id_mem_indexIds_upsertOne A r)
    · exact ih hmem (upsertOne A p)

/-- Helper: any member of upsertOne carrying the upserted id is the upserted
point itself. -/
theorem eq_of_mem_upsertOne {A : Index} {p x : Point} (hx : x ∈ upsertOne A p)
    (hid : x.id = p.id) : x = p := by
  by_cases h : p.id ∈ indexIds A
  · rw [upsertOne_of_mem h, List.mem_map] at hx
    obtain ⟨y, hy, hxy⟩ := hx
    unfold replaceBy at hxy
    by_cases hyp : (y.id == p.id) = true
    · rw [if_pos hyp] at hxy
      exact hxy.symm
    · rw [if_neg hyp] at hxy
      subst hxy
      exact absurd (beq_iff_eq.mpr hid) hyp
  · rw [upsertOne_of_not_mem h, List.mem_append] at hx
    rcases hx with hx | hx
    · exact absurd (hid ▸ List.mem_map_of_mem Point.id hx) h
    · simpa using hx

/-- Helper: upsertOne is idempotent. -/
theorem upsertOne_idem (A : Index) (p : Point) :
    upsertOne (upsertOne A p) p = upsertOne A p := by
  rw [upsertOne_of_mem (id_mem_indexIds_upsertOne A p)]
  conv_rhs => rw [← List.map_id (upsertOne A p)]
  apply List.map_congr_left
  intro x hx
  unfold replaceBy
  by_cases hxp : (x.id == p.id) = true
  · rw [if_pos hxp]
    exact (eq_of_mem_upsertOne hx (eq_of_beq hxp)).symm
  · rw [if_neg hxp]
    rfl

/-- Helper: two upserts of the same id collapse to the second. -/
theorem upsertOne_same_id {A : Index} {p q : Point} (h : p.id = q.id) :
    upsertOne (upsertOne A p) q = upsertOne A q := by
  by_cases hp : p.id ∈ indexIds A
  · have hq : q.id ∈ indexIds A := h ▸ hp
    have h3 : q.id ∈ indexIds (upsertOne A p) := by
      rw [indexIds_upsertOne_of_mem hp]
      exact hq
    rw [upsertOne_of_mem h3, upsertOne_of_mem hp, upsertOne_of_mem hq, List.map_map]
    apply List.map_congr_left
    intro x _
    show replaceBy q (replaceBy p x) = replaceBy q x
    unfold replaceBy
    by_cases hx : (x.id == p.id) = true
    · have h1 : (p.id == q.id) = true := beq_iff_eq.mpr h
      have h2 : (x.id == q.id) = true := beq_iff_eq.mpr ((eq_of_beq hx).trans h)
      simp [hx, h1, h2]
    · simp [hx]
  · have hq : q.id ∉ indexIds A := h ▸ hp
    rw [upsertOne_of_not_mem hp]
    have h3 : q.id ∈ indexIds (A ++ [p]) := by
      unfold indexIds
      rw [List.map_append, List.mem_append]
      right
      rw [List.map_cons, List.map_nil, List.mem_singleton]
      exact h.symm
    rw [upsertOne_of_mem h3, upsertOne_of_not_mem hq, List.map_append]
    congr 1
    · conv_rhs => rw [← List.map_id A]
      apply List.map_congr_left
      intro x hxA
      have hne2 : (x.id == q.id) = false := by
        rw [beq_eq_false_iff_ne]
        intro he
        exact hq (he ▸ List.mem_map_of_mem Point.id hxA)
      simp [replaceBy, hne2]
    · show [p].map (replaceBy q) = [q]
      simp [replaceBy, beq_iff_eq, h]

/-- Helper: the point replacements of two distinct ids commute. -/
theorem replaceBy_comm {q r : Point} (hne : r.id ≠ q.id) (x : Point) :
    replaceBy r (replaceBy q x) = replaceBy q (replaceBy r x) := by
  have hqr : (q.id == r.id) = false := beq_eq_false_iff_ne.mpr (fun he => hne he.symm)
  have hrq : (r.id == q.id) = false := beq_eq_false_iff_ne.mpr hne
  unfold replaceBy
  by_cases hxq : (x.id == q.id) = true
  · have hxr : (x.id == r.id) = false := by
      rw [beq_eq_false_iff_ne]
      rw [beq_iff_eq] at hxq
      rw [hxq]
      exact fun he => hne he.symm
    simp [hxq, hxr, hqr]
  · by_cases hxr : (x.id == r.id) = true
    · simp [hxq, hxr, hrq]
    · simp [hxq, hxr]

/-- Helper: upserting a fresh id and replacing a present distinct id
commute. -/
theorem upsertOne_comm {A : Index} {q r : Point} (hr : r.id ∈ indexIds A)
    (hne : r.id ≠ q.id) :
    upsertOne (upsertOne A q) r = upsertOne (upsertOne A r) q := by
  have hqr : (q.id == r.id) = false := beq_eq_false_iff_ne.mpr (fun he => hne he.symm)
  by_cases hq : q.id ∈ indexIds A
  · have hr2 : r.id ∈ indexIds (upsertOne A q) := by
      rw [indexIds_upsertOne_of_mem hq]
      exact hr
    have hq2 : q.id ∈ indexIds (upsertOne A r) := by
      rw [indexIds_upsertOne_of_mem hr]
      exact hq
    rw [upsertOne_of_mem hr2, upsertOne_of_mem hq2, upsertOne_of_mem hq,
      upsertOne_of_mem hr, List.map_map, List.map_map]
    exact List.map_congr_left (fun x _ => replaceBy_comm hne x)
  · have hq2 : q.id ∉ indexIds (upsertOne A r) := by
      rw [indexIds_upsertOne_of_mem hr]
      exact hq
    rw [upsertOne_of_not_mem hq2, upsertOne_of_not_mem hq, upsertOne_of_mem hr]
    have hrm : r.id ∈ indexIds (A ++ [q]) := by
      unfold indexIds
      rw [List.map_append]
      exact List.mem_append_left _ hr
    rw [upsertOne_of_mem hrm, List.map_append]
    congr 1
    show [q].map (replaceBy r) = [q]
    simp [replaceBy, hqr]

/-- Helper: a stale rewrite of an id that the batch will rewrite anyway (or
that already holds the stale value) is erased by replaying the batch and
re-writing the id. -/
theorem upsert_replay (t : List Point) : ∀ (Y : Index) (q : Point),
    (∀ r ∈ t, r.id ∈ indexIds Y) →
    upsertOne (qdrantUpsert (upsertOne Y q) t) q = upsertOne (qdrantUpsert Y t) q := by
  induction t with
  | nil =>
    intro Y q _
    exact upsertOne_idem Y q
  | cons r t2 ih =>
    intro Y q hall
    show upsertOne (qdrantUpsert (upsertOne (upsertOne Y q) r) t2) q =
      upsertOne (qdrantUpsert (upsertOne Y r) t2) q
    by_cases hrq : r.id = q.id
    · rw [upsertOne_same_id hrq.symm]
    · rw [upsertOne_comm (hall r (List.mem_cons_self r t2)) hrq]
      exact ih (upsertOne Y r) q
        (fun s hs => indexIds_upsertOne_sub Y r (hall s (List.mem_cons_of_mem r hs)))

/-- Helper: re-upserting the same batch leaves the collection unchanged. -/
theorem qdrantUpsert_idem (ps : List Point) : ∀ A : Index,
    qdrantUpsert (qdrantUpsert A ps) ps = qdrantUpsert A ps := by
  induction ps using List.reverseRecOn with
  | nil => exact fun A => rfl
  | append_singleton t q ih =>
    intro A
    have hsnoc : ∀ B : Index, qdrantUpsert B (t ++ [q]) = upsertOne (qdrantUpsert B t) q := by
      intro B
      unfold qdrantUpsert
      rw [List.foldl_append]
      rfl
    rw [hsnoc A, hsnoc (upsertOne (qdrantUpsert A t) q),
      upsert_replay t (qdrantUpsert A t) q (fun r hr => mem_ids_qdrantUpsert hr A),
      ih A]

/-- Helper: upsertOne preserves distinctness of ids. -/
theorem nodup_indexIds_upsertOne {A : Index} (p : Point)
    (h : (indexIds A).Nodup) : (indexIds (upsertOne A p)).Nodup := by
  by_cases hm : p.id ∈ indexIds A
  · rw [indexIds_upsertOne_of_mem hm]
    exact h
  · rw [upsertOne_of_not_mem hm]
    unfold indexIds
    rw [List.map_append, List.nodup_append]
    refine ⟨h, by simp, ?_⟩
    intro a ha hb
    simp only [List.map_cons, List.map_nil, List.mem_singleton] at hb
    subst hb
    exact hm ha

/-- Helper: a batched upsert preserves distinctness of ids. -/
theorem nodup_indexIds_qdrantUpsert (ps : List Point) : ∀ A : Index,
    (indexIds A).Nodup → (indexIds (qdrantUpsert A ps)).Nodup := by
  induction ps with
  | nil => exact fun A h => h
  | cons p t ih => exact fun A h => ih (upsertOne A p) (nodup_indexIds_upsertOne p h)

/-- C5: for a successful ingestion of (workspace, file, chunks) one indexed
point is built per (chunk, embedding) pair with deterministic id
workspace_file_chunkIndex and payload carrying the workspace id, the file
id, the chunk index, the chunk text and the metadata (file display name and
chunk character length); upserting the same batch a second time leaves the
index unchanged (same set of point ids both runs), and the index keeps at
most one point per id. -/
theorem insert_vectors_deterministic_idempotent (index : Index) (W F : Nat)
    (chunks : List String) (embeddings : List Vec) (fn : String) :
    ((buildPoints W F (chunksData chunks embeddings fn)).map Point.id =
      (List.range (min chunks.length embeddings.length)).map (pointId W F)) ∧
    (∀ p ∈ buildPoints W F (chunksData chunks embeddings fn),
      p.payload.workspace_id = W ∧ p.payload.file_id = F ∧
      p.id = pointId W F p.payload.chunk_index ∧
      p.payload.metadata.file_name = fn ∧
      p.payload.metadata.chunk_length = p.payload.text.length) ∧
    ((QdrantService.insert_vectors index W F (chunksData chunks embeddings fn)).2 =
      min chunks.length embeddings.length) ∧
    (qdrantUpsert (qdrantUpsert index (buildPoints W F (chunksData chunks embeddings fn)))
        (buildPoints W F (chunksData chunks embeddings fn)) =
      qdrantUpsert index (buildPoints W F (chunksData chunks embeddings fn))) ∧
    ((indexIds index).Nodup →
      (indexIds (qdrantUpsert index
        (buildPoints W F (chunksData chunks embeddings fn)))).Nodup) := by
  refine ⟨?_, ?_, ?_, qdrantUpsert_idem _ index, nodup_indexIds_qdrantUpsert _ index⟩
  · unfold buildPoints chunksData
    rw [List.map_map, List.map_map, ← List.length_zip, ← List.enum_map_fst, List.map_map]
    apply List.map_congr_left
    intro ie _
    rfl
  · intro p hp
    unfold buildPoints chunksData at hp
    rw [List.map_map, List.mem_map] at hp
    obtain ⟨ie, _, hpe⟩ := hp
    subst hpe
    exact ⟨rfl, rfl, rfl, rfl, rfl⟩
  · show (buildPoints W F (chunksData chunks embeddings fn)).length = _
    unfold buildPoints chunksData
    rw [List.length_map, List.length_map, List.enum_length, List.length_zip]

/-- C5 witness: concrete two-chunk batch for workspace 1, file 7: the first
built point has the deterministic id and payload, and upserting the batch
into a two-point index keeps the point ids distinct. -/
theorem insert_vectors_deterministic_idempotent_witness :
    (demoPoint.payload.workspace_id = 1 ∧ demoPoint.payload.file_id = 7 ∧
      demoPoint.id = pointId 1 7 demoPoint.payload.chunk_index ∧
      demoPoint.payload.metadata.file_name = "f.txt" ∧
      demoPoint.payload.metadata.chunk_length = demoPoint.payload.text.length) ∧
    (indexIds (qdrantUpsert idx0
      (buildPoints 1 7 (chunksData ["aa", "bb"] [[1], [2]] "f.txt")))).Nodup :=
  ⟨(insert_vectors_deterministic_idempotent idx0 1 7 ["aa", "bb"] [[1], [2]] "f.txt").2.1
      demoPoint (by decide),
   (insert_vectors_deterministic_idempotent idx0 1 7 ["aa", "bb"] [[1], [2]] "f.txt").2.2.2.2
      (by decide)⟩

end Prizm
